import Mathlib

/-!
Verification of the Update Resolution and Safety Engine of the
NativeScript CLI update controller (class UpdateControllerBase).

The embedding models:
* the snapshot manager (methods backup and restoreBackup) over an abstract
  filesystem in which each root (project root, backup root) is a finite map
  from folder name to folder contents, represented as an association list;
* the version resolver (getMaxDependencyVersion and the memoized
  getPackageManifest built from the private method with the same name),
  with the semver library and the registry services supplied as explicit
  function-valued parameters and registry traffic recorded in a call trace;
* the dependency query (hasDependency) over project manifest data, with
  JavaScript truthiness of the stored specifier string made explicit.
-/

namespace UpdateCtrl

/-! ## Definitions -/

/-! ### Association-list maps (folder trees and caches) -/

/-- Remove every binding of key k from an association list. -/
def eraseKey {β : Type} (m : List (String × β)) (k : String) : List (String × β) :=
  m.filter (fun p => p.1 != k)

/-- Bind key k to v, replacing any previous binding. -/
def insertKey {β : Type} (m : List (String × β)) (k : String) (v : β) : List (String × β) :=
  (k, v) :: eraseKey m k

/-! ### Filesystem world for the snapshot manager -/

/-- Contents of one root directory: folder name mapped to folder contents.
Folder contents are abstracted to a single value, since backup and restore
copy folders wholesale. -/
abbrev Dir := List (String × String)

/-- The part of the filesystem the snapshot manager touches: the project
root and the backup root, assumed distinct directories. -/
structure World where
  project : Dir
  backup : Dir
deriving DecidableEq

/-- One iteration of the loop in restoreBackup: delete projectDir/folder
unconditionally, then, if backupDir/folder exists, copy it back into the
project root. -/
def restoreStep (w : World) (folder : String) : World :=
  match List.lookup folder w.backup with
  | some c => { project := insertKey (eraseKey w.project folder) folder c, backup := w.backup }
  | none => { project := eraseKey w.project folder, backup := w.backup }

/-- restoreBackup(folders, backupDir, projectDir): iterate restoreStep over
the folder list, in order. -/
def restoreBackup (folders : List String) (w : World) : World :=
  folders.foldl restoreStep w

/-- One iteration of the loop in backup: if projectDir/folder exists, copy
it into the backup root; otherwise skip silently. -/
def backupStep (w : World) (folder : String) : World :=
  match List.lookup folder w.project with
  | some c => { w with backup := insertKey w.backup folder c }
  | none => w

/-- backup(folders, backupDir, projectDir): delete the backup root
recursively, recreate it empty, then iterate backupStep over the folder
list. -/
def backup (folders : List String) (w : World) : World :=
  List.foldl backupStep { w with backup := ([] : Dir) } folders

/-- backupStep where the copy of a folder may fail: when
projectDir/folder exists and the copy of that folder fails, the error
propagates carrying the filesystem state reached so far. -/
def backupStepE (copyFails : String → Bool) (w : World) (folder : String) : Except World World :=
  match List.lookup folder w.project with
  | some c =>
    if copyFails folder then Except.error w
    else Except.ok { w with backup := insertKey w.backup folder c }
  | none => Except.ok w

/-- The copy loop of backup with fallible copies: stops at the first
failing copy and propagates the error. -/
def backupLoopE (copyFails : String → Bool) : List String → World → Except World World
  | [], w => Except.ok w
  | f :: fs, w =>
    match backupStepE copyFails w f with
    | Except.ok w2 => backupLoopE copyFails fs w2
    | Except.error w2 => Except.error w2

/-- backup with fallible copies: the backup root is deleted and recreated
empty first, then the copy loop runs. -/
def backupE (copyFails : String → Bool) (folders : List String) (w : World) :
    Except World World :=
  backupLoopE copyFails folders { w with backup := ([] : Dir) }

/-! ### Version resolver -/

/-- Full registry metadata for one resolved package version, abstracted to
an opaque blob. -/
abbrev Manifest := String

/-- One registry interaction, recorded in the call trace of the resolver
functions. -/
inductive RegistryCall where
  | maxSatisfying (name spec : String)
  | tagVersion (name spec : String)
  | manifestFetch (nameAtVersion : String) (fullMetadata : Bool)
deriving DecidableEq

/-- The semver library as consumed by the source: semver.valid returns the
parsed version string (or nothing), semver.validRange the parsed range (or
nothing). Supplied as a parameter, since the library is an external
collaborator of the code under verification. -/
structure SemverLib where
  valid : String → Option String
  validRange : String → Option String

/-- The registry-facing collaborators: packageInstallationManager's
maxSatisfyingVersion, packageManager's getTagVersion, and pacoteService's
manifest fetch (keyed by the name-at-version string; the fullMetadata flag
is recorded in the trace). -/
structure Registry where
  maxSatisfyingVersion : String → String → Option String
  getTagVersion : String → String → Option String
  pacoteManifest : String → Manifest

/-- getMaxDependencyVersion(dependency, version): if semver.valid(version)
then return version itself; else if semver.validRange(version) then one
maxSatisfyingVersion call; else one getTagVersion call. Returns the
resolved version (or nothing) paired with the registry call trace. -/
def getMaxDependencyVersion (sv : SemverLib) (reg : Registry)
    (dependency version : String) : Option String × List RegistryCall :=
  if (sv.valid version).isSome then
    (some version, [])
  else if (sv.validRange version).isSome then
    (reg.maxSatisfyingVersion dependency version,
      [RegistryCall.maxSatisfying dependency version])
  else
    (reg.getTagVersion dependency version,
      [RegistryCall.tagVersion dependency version])

/-- The value of the local packageVersion in _getPackageManifest:
semver.valid(version) when that is truthy, otherwise the result of
getTagVersion(templateName, version). -/
def resolvedPackageVersion (sv : SemverLib) (reg : Registry)
    (templateName version : String) : Option String :=
  match sv.valid version with
  | some pv => some pv
  | none => reg.getTagVersion templateName version

/-- The failure message thrown by _getPackageManifest: it interpolates the
template name and the original specifier, not the resolved version. -/
def manifestFailureMsg (templateName version : String) : String :=
  "Failed to get information for package: " ++ templateName ++ "@" ++ version

/-- _getPackageManifest(templateName, version), before memoization:
resolve packageVersion as semver.valid(version) or getTagVersion; if the
result is truthy and semver-valid, fetch the pacote manifest for
templateName at packageVersion with fullMetadata true, else throw. The
call trace records the registry traffic. -/
def getPackageManifestRaw (sv : SemverLib) (reg : Registry)
    (templateName version : String) : Except String Manifest × List RegistryCall :=
  match sv.valid version with
  | some pv =>
    if (sv.valid pv).isSome then
      (Except.ok (reg.pacoteManifest (templateName ++ "@" ++ pv)),
        [RegistryCall.manifestFetch (templateName ++ "@" ++ pv) true])
    else
      (Except.error (manifestFailureMsg templateName version), [])
  | none =>
    match reg.getTagVersion templateName version with
    | some pv =>
      if (sv.valid pv).isSome then
        (Except.ok (reg.pacoteManifest (templateName ++ "@" ++ pv)),
          [RegistryCall.tagVersion templateName version,
            RegistryCall.manifestFetch (templateName ++ "@" ++ pv) true])
      else
        (Except.error (manifestFailureMsg templateName version),
          [RegistryCall.tagVersion templateName version])
    | none =>
      (Except.error (manifestFailureMsg templateName version),
        [RegistryCall.tagVersion templateName version])

deriving instance DecidableEq for Except

/-- The memoization key built in the constructor: args.join with the at
sign, that is templateName followed by the separator followed by the
version specifier. -/
def memoKey (templateName version : String) : String :=
  templateName ++ "@" ++ version

/-- The lodash memoize cache attached to getPackageManifest: settled
results (success or failure) stored under their string key, never
evicted. -/
structure MemoCache where
  entries : List (String × Except String Manifest)
deriving DecidableEq

/-- Result of one call through the memoized getPackageManifest: the value
observed by the caller, the cache afterwards, and the registry calls this
invocation performed. -/
structure CallOutcome where
  result : Except String Manifest
  cache : MemoCache
  calls : List RegistryCall
deriving DecidableEq

/-- The memoized getPackageManifest installed by the constructor: on a
cache hit under memoKey return the stored settled result with no registry
traffic; on a miss run _getPackageManifest and store its outcome. -/
def getPackageManifest (sv : SemverLib) (reg : Registry) (cache : MemoCache)
    (templateName version : String) : CallOutcome :=
  match List.lookup (memoKey templateName version) cache.entries with
  | some r => { result := r, cache := cache, calls := [] }
  | none =>
    let rc := getPackageManifestRaw sv reg templateName version
    { result := rc.1,
      cache := { entries := insertKey cache.entries (memoKey templateName version) rc.1 },
      calls := rc.2 }

/-- Recognizer for getTagVersion entries of a call trace. -/
def isTagCall : RegistryCall → Bool
  | RegistryCall.tagVersion _ _ => true
  | _ => false

/-- Recognizer for the error side of a settled result. -/
def exceptIsError {ε α : Type} : Except ε α → Bool
  | Except.error _ => true
  | Except.ok _ => false

/-! ### Dependency query -/

/-- The dependency record passed to hasDependency; only its packageName
field is consulted. -/
structure IDependency where
  packageName : String

/-- Project manifest data: the dependencies and devDependencies mappings,
either of which may be absent; present mappings bind package names to
version-specifier strings. -/
structure IProjectData where
  dependencies : Option (List (String × String))
  devDependencies : Option (List (String × String))

/-- JavaScript truthiness of a property access on an optional mapping: the
looked-up value is truthy when present and a non-empty string. -/
def jsTruthy (v : Option String) : Bool :=
  match v with
  | some s => s != ""
  | none => false

/-- hasDependency(dependency, projectData): the truthiness of
(dependencies && dependencies[name]) || (devDependencies &&
devDependencies[name]) as the source computes it. -/
def hasDependency (dep : IDependency) (projectData : IProjectData) : Bool :=
  (match projectData.dependencies with
    | some ds => jsTruthy (List.lookup dep.packageName ds)
    | none => false)
  || (match projectData.devDependencies with
    | some ds => jsTruthy (List.lookup dep.packageName ds)
    | none => false)

/-! ### Substring test used to state what an error message contains -/

/-- The first list is an initial segment of the second, on character
lists. -/
def charsStartWith : List Char → List Char → Bool
  | [], _ => true
  | _ :: _, [] => false
  | a :: as, b :: bs => a == b && charsStartWith as bs

/-- The needle occurs somewhere in the hay, on character lists. -/
def charsContain (needle : List Char) : List Char → Bool
  | [] => charsStartWith needle []
  | b :: bs => charsStartWith needle (b :: bs) || charsContain needle bs

/-- The needle occurs somewhere in the hay, on strings. -/
def strHas (needle hay : String) : Bool :=
  charsContain needle.toList hay.toList

/-! ### Concrete instances used by witnesses and counterexamples -/

/-- A small concrete semver library: one exact version and one range are
recognized, everything else is classified as a tag. -/
def svWitness : SemverLib where
  valid := fun s => if s = "1.2.3" then some "1.2.3" else none
  validRange := fun s => if s = "6.x" then some ">=6.0.0 <7.0.0" else none

/-- A small concrete registry matching svWitness. -/
def regWitness : Registry where
  maxSatisfyingVersion := fun _ _ => some "6.5.0"
  getTagVersion := fun _ _ => some "3.2.0"
  pacoteManifest := fun nv => "manifest:" ++ nv

/-- A semver library for the cache-key collision scenario. -/
def svCollide : SemverLib where
  valid := fun s => if s = "1.0.0" ∨ s = "2.0.0" then some s else none
  validRange := fun _ => none

/-- A registry whose tag lookup distinguishes the two colliding pairs. -/
def regCollide : Registry where
  maxSatisfyingVersion := fun _ _ => none
  getTagVersion := fun n _ => if n = "a" then some "1.0.0" else some "2.0.0"
  pacoteManifest := fun nv => "manifest:" ++ nv

/-- The round-trip scenario of the spec: project folders A and B, empty
backup root. -/
def roundTripInit : World where
  project := [("A", "x"), ("B", "y")]
  backup := []

/-- The scenario after backup over the set A, B, C. -/
def roundTripBacked : World :=
  backup ["A", "B", "C"] roundTripInit

/-- The scenario after the mutation: folder A deleted, folder D created. -/
def roundTripMutated : World :=
  { roundTripBacked with
    project := insertKey (eraseKey roundTripBacked.project "A") "D" "d" }

/-- The scenario after restore over the set A, B, C. -/
def roundTripFinal : World :=
  restoreBackup ["A", "B", "C"] roundTripMutated

/-! ## Theorems -/

/-! ### Association-list lemmas -/

theorem eraseKey_cons {β : Type} (a : String) (b : β) (t : List (String × β)) (k : String) :
    eraseKey ((a, b) :: t) k =
      if a = k then eraseKey t k else (a, b) :: eraseKey t k := by
  by_cases h : a = k <;> simp [eraseKey, List.filter_cons, h]

theorem lookup_eraseKey {β : Type} (m : List (String × β)) (k x : String) :
    List.lookup x (eraseKey m k) = if x = k then none else List.lookup x m := by
  induction m with
  | nil => simp [eraseKey]
  | cons p t ih =>
    obtain ⟨a, b⟩ := p
    rw [eraseKey_cons]
    by_cases hak : a = k
    · subst hak
      rw [if_pos rfl, ih, List.lookup_cons]
      by_cases hxk : x = a
      · simp [hxk]
      · have hb : (x == a) = false := by simp [hxk]
        simp [hxk, hb]
    · rw [if_neg hak, List.lookup_cons, List.lookup_cons]
      by_cases hxa : x = a
      · subst hxa
        have hxk : ¬ x = k := hak
        simp [hxk]
      · have hb : (x == a) = false := by simp [hxa]
        simp [hb, ih]

theorem lookup_insertKey {β : Type} (m : List (String × β)) (k x : String) (v : β) :
    List.lookup x (insertKey m k v) = if x = k then some v else List.lookup x m := by
  by_cases hxk : x = k
  · subst hxk
    simp [insertKey, List.lookup_cons]
  · have hb : (x == k) = false := by simp [hxk]
    simp [insertKey, List.lookup_cons, hb, hxk, lookup_eraseKey]

/-! ### Snapshot manager lemmas -/

theorem restoreStep_backup (w : World) (f : String) :
    (restoreStep w f).backup = w.backup := by
  unfold restoreStep
  cases List.lookup f w.backup <;> rfl

theorem restoreStep_lookup (w : World) (f x : String) :
    List.lookup x (restoreStep w f).project =
      if x = f then List.lookup f w.backup else List.lookup x w.project := by
  unfold restoreStep
  cases hb : List.lookup f w.backup with
  | none => simp [lookup_eraseKey, hb]
  | some c =>
    simp only [lookup_insertKey, lookup_eraseKey, hb]
    by_cases hxf : x = f <;> simp [hxf]

theorem restoreBackup_backup (folders : List String) (w : World) :
    (restoreBackup folders w).backup = w.backup := by
  induction folders generalizing w with
  | nil => rfl
  | cons a t ih => simp [restoreBackup, List.foldl] at *; rw [ih, restoreStep_backup]

theorem restoreBackup_lookup (folders : List String) (w : World) (x : String) :
    List.lookup x (restoreBackup folders w).project =
      if x ∈ folders then List.lookup x w.backup else List.lookup x w.project := by
  induction folders generalizing w with
  | nil => simp [restoreBackup]
  | cons a t ih =>
    have step : restoreBackup (a :: t) w = restoreBackup t (restoreStep w a) := rfl
    rw [step, ih, restoreStep_backup, restoreStep_lookup]
    by_cases hxt : x ∈ t
    · simp [hxt, List.mem_cons]
    · by_cases hxa : x = a
      · subst hxa; simp [hxt, List.mem_cons]
      · simp [hxt, hxa, List.mem_cons]

theorem backupStep_project (w : World) (f : String) :
    (backupStep w f).project = w.project := by
  unfold backupStep
  cases List.lookup f w.project <;> rfl

theorem backupStep_lookup (w : World) (f x : String) :
    List.lookup x (backupStep w f).backup =
      match List.lookup f w.project with
      | some c => if x = f then some c else List.lookup x w.backup
      | none => List.lookup x w.backup := by
  unfold backupStep
  cases hp : List.lookup f w.project with
  | none => simp
  | some c => simp [lookup_insertKey]

theorem backupLoop_project (folders : List String) (w : World) :
    (List.foldl backupStep w folders).project = w.project := by
  induction folders generalizing w with
  | nil => rfl
  | cons a t ih => simp [List.foldl]; rw [ih, backupStep_project]

theorem backupLoop_lookup (folders : List String) (w : World) (x : String) :
    List.lookup x (List.foldl backupStep w folders).backup =
      if x ∈ folders ∧ (List.lookup x w.project).isSome then List.lookup x w.project
      else List.lookup x w.backup := by
  induction folders generalizing w with
  | nil => simp
  | cons a t ih =>
    have step : List.foldl backupStep w (a :: t) = List.foldl backupStep (backupStep w a) t := rfl
    rw [step, ih, backupStep_project, backupStep_lookup]
    by_cases hxt : x ∈ t
    · by_cases hs : (List.lookup x w.project).isSome
      · simp [hxt, hs, List.mem_cons]
      · simp [hxt, hs, List.mem_cons]
        cases hp : List.lookup a w.project with
        | none => rfl
        | some c =>
          by_cases hxa : x = a
          · subst hxa; rw [hp] at hs; simp at hs
          · simp [hxa]
    · by_cases hxa : x = a
      · subst hxa
        cases hp : List.lookup x w.project with
        | none => simp [hxt, hp, List.mem_cons]
        | some c => simp [hxt, hp, List.mem_cons]
      · simp only [hxt, hxa, List.mem_cons, false_or, or_self, false_and, if_false]
        cases List.lookup a w.project with
        | none => rfl
        | some c => simp [hxa]

theorem backup_project (folders : List String) (w : World) :
    (backup folders w).project = w.project := by
  unfold backup; rw [backupLoop_project]

theorem backup_lookup (folders : List String) (w : World) (x : String) :
    List.lookup x (backup folders w).backup =
      if x ∈ folders then List.lookup x w.project else none := by
  unfold backup
  rw [backupLoop_lookup]
  by_cases hx : x ∈ folders
  · cases hp : List.lookup x w.project with
    | none => simp [hx, hp]
    | some c => simp [hx, hp]
  · simp [hx]

theorem backupLoopE_inv (copyFails : String → Bool) (folders : List String) (w w2 : World)
    (hw : ∀ x, List.lookup x w.backup = none ∨ List.lookup x w.backup = List.lookup x w.project)
    (h : backupLoopE copyFails folders w = Except.error w2 ∨
      backupLoopE copyFails folders w = Except.ok w2) :
    w2.project = w.project ∧
      (∀ x, List.lookup x w2.backup = none ∨
        List.lookup x w2.backup = List.lookup x w.project) := by
  induction folders generalizing w with
  | nil =>
    rcases h with h | h
    · simp [backupLoopE] at h
    · simp [backupLoopE] at h
      subst h
      exact ⟨rfl, hw⟩
  | cons f fs ih =>
    have hrun : backupLoopE copyFails (f :: fs) w =
        match backupStepE copyFails w f with
        | Except.ok w3 => backupLoopE copyFails fs w3
        | Except.error w3 => Except.error w3 := rfl
    cases hp : List.lookup f w.project with
    | none =>
      have hs : backupStepE copyFails w f = Except.ok w := by
        unfold backupStepE; rw [hp]
      rw [hrun, hs] at h
      exact ih w hw h
    | some c =>
      by_cases hc : copyFails f = true
      · have hs : backupStepE copyFails w f = Except.error w := by
          unfold backupStepE; rw [hp]; simp [hc]
        rw [hrun, hs] at h
        rcases h with h | h
        · have hww : w = w2 := by injection h
          subst hww
          exact ⟨rfl, hw⟩
        · cases h
      · have hs : backupStepE copyFails w f =
            Except.ok { project := w.project, backup := insertKey w.backup f c } := by
          unfold backupStepE; rw [hp]; simp [hc]
        rw [hrun, hs] at h
        have hw1 : ∀ x,
            List.lookup x (World.backup
              { project := w.project, backup := insertKey w.backup f c }) = none ∨
            List.lookup x (World.backup
              { project := w.project, backup := insertKey w.backup f c }) =
              List.lookup x (World.project
                { project := w.project, backup := insertKey w.backup f c }) := by
          intro x
          show List.lookup x (insertKey w.backup f c) = none ∨
            List.lookup x (insertKey w.backup f c) = List.lookup x w.project
          rw [lookup_insertKey]
          by_cases hx : x = f
          · subst hx; right; rw [if_pos rfl, hp]
          · rw [if_neg hx]
            exact hw x
        exact ih { project := w.project, backup := insertKey w.backup f c } hw1 h

/-! ### Claim C1 -/

/-- C1 counterexample: in the spec scenario (project folders A and B,
backup set A, B, C, then A deleted and D created before restore), the
folder D is still present after restore, although it did not exist at
backup time; so the project does not contain exactly the backup-time
folders. A and B are indeed recovered with original contents. -/
theorem roundTrip_keeps_foreign_folder :
    List.lookup "D" roundTripFinal.project = some "d" ∧
    List.lookup "D" roundTripInit.project = none ∧
    List.lookup "A" roundTripFinal.project = some "x" ∧
    List.lookup "B" roundTripFinal.project = some "y" := by
  decide

/-- C1 amended: after backup over the folder list, an arbitrary mutation
of the project root, and restore over the same list, each listed folder
name is mapped exactly as at backup time (present with backup-time
contents, or absent), while every name outside the list keeps its mutated
state. -/
theorem backup_restore_roundTrip (folders : List String) (w : World) (mutated : Dir)
    (f : String) :
    List.lookup f (restoreBackup folders
        { project := mutated, backup := (backup folders w).backup }).project =
      if f ∈ folders then List.lookup f w.project else List.lookup f mutated := by
  rw [restoreBackup_lookup]
  by_cases hf : f ∈ folders
  · have hb : List.lookup f (World.backup
        { project := mutated, backup := (backup folders w).backup }) =
        List.lookup f (backup folders w).backup := rfl
    rw [if_pos hf, if_pos hf, hb, backup_lookup, if_pos hf]
  · rw [if_neg hf, if_neg hf]

/-- C1 amended witness: in the spec scenario, folder A is restored to its
backup-time contents. -/
theorem backup_restore_roundTrip_witness :
    List.lookup "A" (restoreBackup ["A", "B", "C"]
        { project := [("D", "d"), ("B", "y")],
          backup := (backup ["A", "B", "C"] roundTripInit).backup }).project =
      if "A" ∈ ["A", "B", "C"] then List.lookup "A" roundTripInit.project
      else List.lookup "A" [("D", "d"), ("B", "y")] :=
  backup_restore_roundTrip ["A", "B", "C"] roundTripInit [("D", "d"), ("B", "y")] "A"

/-! ### Claim C7 -/

/-- C7: for every listed folder name, restore leaves the project entry
equal to the backup entry (in particular the project folder is deleted
even when no backup of it exists), while backup records exactly the
project entry (silently skipping absent folders) and never touches the
project root. -/
theorem restore_backup_asymmetry (folders : List String) (w : World) (f : String)
    (hf : f ∈ folders) :
    List.lookup f (restoreBackup folders w).project = List.lookup f w.backup ∧
    (List.lookup f w.backup = none → List.lookup f (restoreBackup folders w).project = none) ∧
    List.lookup f (backup folders w).backup = List.lookup f w.project ∧
    (backup folders w).project = w.project := by
  refine ⟨?_, ?_, ?_, backup_project folders w⟩
  · rw [restoreBackup_lookup, if_pos hf]
  · intro h; rw [restoreBackup_lookup, if_pos hf, h]
  · rw [backup_lookup, if_pos hf]

/-- C7 witness: a project folder with no backup counterpart is deleted by
restore. -/
theorem restore_backup_asymmetry_witness :
    ("obj" ∈ ["obj", "hooks"]) ∧
    List.lookup "obj"
      (restoreBackup ["obj", "hooks"] { project := [("obj", "stale")], backup := [] }).project =
      none :=
  ⟨by decide,
    (restore_backup_asymmetry ["obj", "hooks"]
      { project := [("obj", "stale")], backup := [] } "obj" (by decide)).2.1 (by decide)⟩

/-! ### Claim C9 -/

/-- C9: restore is a frame on everything outside the folder list: a
project entry whose name is not listed is unchanged, and the backup root
is never written. -/
theorem restoreBackup_frame (folders : List String) (w : World) (g : String)
    (hg : g ∉ folders) :
    List.lookup g (restoreBackup folders w).project = List.lookup g w.project ∧
    (restoreBackup folders w).backup = w.backup :=
  ⟨by rw [restoreBackup_lookup, if_neg hg], restoreBackup_backup folders w⟩

/-- C9 witness: a folder D created after backup, outside the backup set,
survives restore unmodified. -/
theorem restoreBackup_frame_witness :
    ("D" ∉ ["A", "B", "C"]) ∧
    List.lookup "D"
      (restoreBackup ["A", "B", "C"]
        { project := [("D", "d")], backup := [("A", "x")] }).project = some "d" :=
  ⟨by decide, by
    rw [(restoreBackup_frame ["A", "B", "C"]
      { project := [("D", "d")], backup := [("A", "x")] } "D" (by decide)).1]
    decide⟩

/-! ### Claim C10 -/

/-- C10: backup is not atomic on error: the backup root is wiped before
any copy (with an empty folder list the result is exactly the emptied
root), and whenever a copy step fails, the propagated error carries a
state whose backup root holds only folders copied from the current
project — nothing of the prior backup survives. The project root is
untouched. -/
theorem backupE_error_destroys (copyFails : String → Bool) (folders : List String)
    (w w2 : World) (h : backupE copyFails folders w = Except.error w2) :
    w2.project = w.project ∧
    (∀ x, List.lookup x w2.backup = none ∨
      List.lookup x w2.backup = List.lookup x w.project) ∧
    backupE copyFails ([] : List String) w = Except.ok { w with backup := ([] : Dir) } := by
  have hw : ∀ x, List.lookup x (World.backup { w with backup := ([] : Dir) }) = none ∨
      List.lookup x (World.backup { w with backup := ([] : Dir) }) =
        List.lookup x (World.project { w with backup := ([] : Dir) }) := by
    intro x; left; rfl
  have := backupLoopE_inv copyFails folders { w with backup := ([] : Dir) } w2 hw (Or.inl h)
  exact ⟨this.1, this.2, rfl⟩

/-- C10 witness: a backup call that fails while copying the second folder
has already destroyed the prior backup (the old entry OLD is gone) and has
partially filled the new backup root. -/
theorem backupE_error_destroys_witness :
    (backupE (fun f => f == "B") ["A", "B"]
        { project := [("A", "x"), ("B", "y")], backup := [("OLD", "o")] } =
      Except.error { project := [("A", "x"), ("B", "y")], backup := [("A", "x")] }) ∧
    List.lookup "OLD"
      (World.backup { project := [("A", "x"), ("B", "y")], backup := [("A", "x")] }) = none := by
  refine ⟨by decide, ?_⟩
  rcases (backupE_error_destroys (fun f => f == "B") ["A", "B"]
      { project := [("A", "x"), ("B", "y")], backup := [("OLD", "o")] }
      { project := [("A", "x"), ("B", "y")], backup := [("A", "x")] }
      (by decide)).2.1 "OLD" with h | h
  · exact h
  · rw [h]; decide

/-! ### Claim C2 -/

/-- C2: getMaxDependencyVersion classifies the specifier in fixed order:
a semver-valid exact version is returned unchanged with no registry call;
otherwise a semver-valid range makes exactly one maxSatisfyingVersion
call and returns its result; otherwise exactly one getTagVersion call is
made and its result returned. The branches are mutually exclusive, cover
every specifier, and the trace never holds more than one call. -/
theorem getMaxDependencyVersion_policy (sv : SemverLib) (reg : Registry) (n s : String) :
    ((sv.valid s).isSome = true →
      getMaxDependencyVersion sv reg n s = (some s, [])) ∧
    ((sv.valid s).isSome = false → (sv.validRange s).isSome = true →
      getMaxDependencyVersion sv reg n s =
        (reg.maxSatisfyingVersion n s, [RegistryCall.maxSatisfying n s])) ∧
    ((sv.valid s).isSome = false → (sv.validRange s).isSome = false →
      getMaxDependencyVersion sv reg n s =
        (reg.getTagVersion n s, [RegistryCall.tagVersion n s])) ∧
    (getMaxDependencyVersion sv reg n s).2.length ≤ 1 := by
  cases h1 : (sv.valid s).isSome with
  | true => simp [getMaxDependencyVersion, h1]
  | false =>
    cases h2 : (sv.validRange s).isSome with
    | true => simp [getMaxDependencyVersion, h1, h2]
    | false => simp [getMaxDependencyVersion, h1, h2]

/-- C2 witness: the three branches at concrete inputs: an exact version is
returned unchanged with no call, a range makes one maxSatisfyingVersion
call, a tag makes one getTagVersion call. -/
theorem getMaxDependencyVersion_policy_witness :
    getMaxDependencyVersion svWitness regWitness "tns-android" "1.2.3" = (some "1.2.3", []) ∧
    getMaxDependencyVersion svWitness regWitness "tns-android" "6.x" =
      (some "6.5.0", [RegistryCall.maxSatisfying "tns-android" "6.x"]) ∧
    getMaxDependencyVersion svWitness regWitness "tns-android" "latest" =
      (some "3.2.0", [RegistryCall.tagVersion "tns-android" "latest"]) := by
  refine ⟨(getMaxDependencyVersion_policy svWitness regWitness "tns-android" "1.2.3").1
    (by decide), ?_, ?_⟩
  · rw [(getMaxDependencyVersion_policy svWitness regWitness "tns-android" "6.x").2.1
      (by decide) (by decide)]
    decide
  · rw [(getMaxDependencyVersion_policy svWitness regWitness "tns-android" "latest").2.2.1
      (by decide) (by decide)]
    decide

/-! ### Claims C3 and C8 share the next two lemmas -/

theorem getPackageManifest_cached (sv : SemverLib) (reg : Registry) (cache : MemoCache)
    (n s : String) :
    List.lookup (memoKey n s) (getPackageManifest sv reg cache n s).cache.entries =
      some (getPackageManifest sv reg cache n s).result := by
  unfold getPackageManifest
  cases h : List.lookup (memoKey n s) cache.entries with
  | some r => simp [h]
  | none => simp [h, lookup_insertKey]

theorem getPackageManifest_hit (sv : SemverLib) (reg : Registry) (cache : MemoCache)
    (n s : String) (r : Except String Manifest)
    (h : List.lookup (memoKey n s) cache.entries = some r) :
    getPackageManifest sv reg cache n s =
      { result := r, cache := cache, calls := [] } := by
  unfold getPackageManifest
  rw [h]

theorem getPackageManifest_miss (sv : SemverLib) (reg : Registry) (cache : MemoCache)
    (n s : String) (h : List.lookup (memoKey n s) cache.entries = none) :
    getPackageManifest sv reg cache n s =
      { result := (getPackageManifestRaw sv reg n s).1,
        cache := { entries :=
          insertKey cache.entries (memoKey n s) (getPackageManifestRaw sv reg n s).1 },
        calls := (getPackageManifestRaw sv reg n s).2 } := by
  unfold getPackageManifest
  rw [h]

theorem getPackageManifest_cache_other (sv : SemverLib) (reg : Registry) (cache : MemoCache)
    (n s k : String) (hk : k ≠ memoKey n s) :
    List.lookup k (getPackageManifest sv reg cache n s).cache.entries =
      List.lookup k cache.entries := by
  unfold getPackageManifest
  cases h : List.lookup (memoKey n s) cache.entries with
  | some r => rfl
  | none => simp [lookup_insertKey, hk]

/-! ### Claim C3 -/

/-- C3: the memoized getPackageManifest is keyed by (name, specifier) and
never evicted: any later call with the same key — even against a semver
library or registry whose answers have changed — returns the first call's
settled result (success or failure), performs no registry call, and
leaves the cache unchanged. -/
theorem getPackageManifest_memoized (sv sv2 : SemverLib) (reg reg2 : Registry)
    (cache : MemoCache) (n s : String) :
    (getPackageManifest sv2 reg2 (getPackageManifest sv reg cache n s).cache n s).result =
      (getPackageManifest sv reg cache n s).result ∧
    (getPackageManifest sv2 reg2 (getPackageManifest sv reg cache n s).cache n s).calls =
      ([] : List RegistryCall) ∧
    (getPackageManifest sv2 reg2 (getPackageManifest sv reg cache n s).cache n s).cache =
      (getPackageManifest sv reg cache n s).cache := by
  rw [getPackageManifest_hit sv2 reg2 (getPackageManifest sv reg cache n s).cache n s
    (getPackageManifest sv reg cache n s).result
    (getPackageManifest_cached sv reg cache n s)]
  exact ⟨rfl, rfl, rfl⟩

/-- C3 witness: a repeated call with the key pkg at latest, against a
changed semver library and registry, returns the first result with no
registry call. -/
theorem getPackageManifest_memoized_witness :
    ((getPackageManifest svCollide regCollide
        (getPackageManifest svWitness regWitness { entries := [] } "pkg" "latest").cache
        "pkg" "latest").result =
      (getPackageManifest svWitness regWitness { entries := [] } "pkg" "latest").result) ∧
    ((getPackageManifest svCollide regCollide
        (getPackageManifest svWitness regWitness { entries := [] } "pkg" "latest").cache
        "pkg" "latest").calls = ([] : List RegistryCall)) :=
  ⟨(getPackageManifest_memoized svWitness svCollide regWitness regCollide
      { entries := [] } "pkg" "latest").1,
    (getPackageManifest_memoized svWitness svCollide regWitness regCollide
      { entries := [] } "pkg" "latest").2.1⟩

/-! ### Claim C8 -/

/-- C8 counterexample: the cache key is the join of name and specifier
with an at sign, which is not injective: the pairs (a, b@c) and (a@b, c)
differ in both components yet share the key a@b@c, so the second call
observes the result cached for the first pair, performs no registry call,
and disagrees with what an independent resolution of (a@b, c) returns. -/
theorem getPackageManifest_key_collision :
    (("a", "b@c") ≠ (("a@b" : String), ("c" : String))) ∧
    (getPackageManifest svCollide regCollide
        (getPackageManifest svCollide regCollide { entries := [] } "a" "b@c").cache
        "a@b" "c").result = Except.ok "manifest:a@1.0.0" ∧
    (getPackageManifest svCollide regCollide
        (getPackageManifest svCollide regCollide { entries := [] } "a" "b@c").cache
        "a@b" "c").calls = ([] : List RegistryCall) ∧
    (getPackageManifestRaw svCollide regCollide "a@b" "c").1 =
      Except.ok "manifest:a@b@2.0.0" := by
  decide

/-- C8 amended: memoization is keyed by the joined string name-at-sign-
specifier; two calls whose joined keys differ resolve independently (the
second call returns the same result with the same registry calls as it
would from the original cache), while pairs with equal joins share one
cache entry. -/
theorem getPackageManifest_independent (sv : SemverLib) (reg : Registry) (cache : MemoCache)
    (n s n2 s2 : String) (hk : memoKey n2 s2 ≠ memoKey n s) :
    (getPackageManifest sv reg (getPackageManifest sv reg cache n s).cache n2 s2).result =
      (getPackageManifest sv reg cache n2 s2).result ∧
    (getPackageManifest sv reg (getPackageManifest sv reg cache n s).cache n2 s2).calls =
      (getPackageManifest sv reg cache n2 s2).calls := by
  have hl := getPackageManifest_cache_other sv reg cache n s (memoKey n2 s2) hk
  cases h2 : List.lookup (memoKey n2 s2) cache.entries with
  | some r =>
    rw [getPackageManifest_hit sv reg (getPackageManifest sv reg cache n s).cache n2 s2 r
        (hl.trans h2),
      getPackageManifest_hit sv reg cache n2 s2 r h2]
    exact ⟨rfl, rfl⟩
  | none =>
    rw [getPackageManifest_miss sv reg (getPackageManifest sv reg cache n s).cache n2 s2
        (hl.trans h2),
      getPackageManifest_miss sv reg cache n2 s2 h2]
    exact ⟨rfl, rfl⟩

/-- C8 amended witness: calls under two distinct joined keys resolve
independently. -/
theorem getPackageManifest_independent_witness :
    (memoKey "b" "latest" ≠ memoKey "a" "1.2.3") ∧
    (getPackageManifest svWitness regWitness
        (getPackageManifest svWitness regWitness { entries := [] } "a" "1.2.3").cache
        "b" "latest").result =
      (getPackageManifest svWitness regWitness { entries := [] } "b" "latest").result :=
  ⟨by decide,
    (getPackageManifest_independent svWitness regWitness { entries := [] }
      "a" "1.2.3" "b" "latest" (by decide)).1⟩

/-! ### Branch equations for the manifest path, shared by C4 and C5 -/

theorem getPackageManifestRaw_eq_exact (sv : SemverLib) (reg : Registry) (n s pv : String)
    (hv : sv.valid s = some pv) (h2 : (sv.valid pv).isSome = true) :
    getPackageManifestRaw sv reg n s =
      (Except.ok (reg.pacoteManifest (n ++ "@" ++ pv)),
        [RegistryCall.manifestFetch (n ++ "@" ++ pv) true]) := by
  unfold getPackageManifestRaw
  rw [hv]
  simp [h2]

theorem getPackageManifestRaw_eq_exact_bad (sv : SemverLib) (reg : Registry) (n s pv : String)
    (hv : sv.valid s = some pv) (h2 : (sv.valid pv).isSome = false) :
    getPackageManifestRaw sv reg n s =
      (Except.error (manifestFailureMsg n s), []) := by
  unfold getPackageManifestRaw
  rw [hv]
  simp [h2]

theorem getPackageManifestRaw_eq_tag (sv : SemverLib) (reg : Registry) (n s pv : String)
    (hv : sv.valid s = none) (ht : reg.getTagVersion n s = some pv)
    (h2 : (sv.valid pv).isSome = true) :
    getPackageManifestRaw sv reg n s =
      (Except.ok (reg.pacoteManifest (n ++ "@" ++ pv)),
        [RegistryCall.tagVersion n s, RegistryCall.manifestFetch (n ++ "@" ++ pv) true]) := by
  unfold getPackageManifestRaw
  rw [hv, ht]
  simp [h2]

theorem getPackageManifestRaw_eq_tag_bad (sv : SemverLib) (reg : Registry) (n s pv : String)
    (hv : sv.valid s = none) (ht : reg.getTagVersion n s = some pv)
    (h2 : (sv.valid pv).isSome = false) :
    getPackageManifestRaw sv reg n s =
      (Except.error (manifestFailureMsg n s), [RegistryCall.tagVersion n s]) := by
  unfold getPackageManifestRaw
  rw [hv, ht]
  simp [h2]

theorem getPackageManifestRaw_eq_tag_none (sv : SemverLib) (reg : Registry) (n s : String)
    (hv : sv.valid s = none) (ht : reg.getTagVersion n s = none) :
    getPackageManifestRaw sv reg n s =
      (Except.error (manifestFailureMsg n s), [RegistryCall.tagVersion n s]) := by
  unfold getPackageManifestRaw
  rw [hv, ht]

theorem resolvedPackageVersion_eq_valid (sv : SemverLib) (reg : Registry) (n s pv : String)
    (hv : sv.valid s = some pv) :
    resolvedPackageVersion sv reg n s = some pv := by
  unfold resolvedPackageVersion
  rw [hv]

theorem resolvedPackageVersion_eq_tag (sv : SemverLib) (reg : Registry) (n s : String)
    (hv : sv.valid s = none) :
    resolvedPackageVersion sv reg n s = reg.getTagVersion n s := by
  unfold resolvedPackageVersion
  rw [hv]

/-! ### Claim C4 -/

/-- C4: the manifest path never consults maxSatisfyingVersion (for any
cache state of the memoized entry point as well); a specifier that is not
semver-valid is resolved by exactly one getTagVersion call; a semver-valid
specifier causes no tag call; and a successful result is the pacote
manifest fetched for name-at-resolvedVersion with fullMetadata true. -/
theorem getPackageManifestRaw_tagOnly (sv : SemverLib) (reg : Registry) (n s : String) :
    (∀ a b, RegistryCall.maxSatisfying a b ∉ (getPackageManifestRaw sv reg n s).2) ∧
    (∀ cache a b, RegistryCall.maxSatisfying a b ∉ (getPackageManifest sv reg cache n s).calls) ∧
    (sv.valid s = none →
      (getPackageManifestRaw sv reg n s).2.filter isTagCall = [RegistryCall.tagVersion n s]) ∧
    ((sv.valid s).isSome = true →
      (getPackageManifestRaw sv reg n s).2.filter isTagCall = ([] : List RegistryCall)) ∧
    (∀ m, (getPackageManifestRaw sv reg n s).1 = Except.ok m →
      ∃ pv, resolvedPackageVersion sv reg n s = some pv ∧ (sv.valid pv).isSome = true ∧
        m = reg.pacoteManifest (n ++ "@" ++ pv) ∧
        RegistryCall.manifestFetch (n ++ "@" ++ pv) true ∈ (getPackageManifestRaw sv reg n s).2) := by
  have hraw : ∀ a b, RegistryCall.maxSatisfying a b ∉ (getPackageManifestRaw sv reg n s).2 := by
    intro a b
    cases hv : sv.valid s with
    | some pv =>
      cases h2 : (sv.valid pv).isSome with
      | true => rw [getPackageManifestRaw_eq_exact sv reg n s pv hv h2]; simp
      | false => rw [getPackageManifestRaw_eq_exact_bad sv reg n s pv hv h2]; simp
    | none =>
      cases ht : reg.getTagVersion n s with
      | some pv =>
        cases h2 : (sv.valid pv).isSome with
        | true => rw [getPackageManifestRaw_eq_tag sv reg n s pv hv ht h2]; simp
        | false => rw [getPackageManifestRaw_eq_tag_bad sv reg n s pv hv ht h2]; simp
      | none => rw [getPackageManifestRaw_eq_tag_none sv reg n s hv ht]; simp
  refine ⟨hraw, ?_, ?_, ?_, ?_⟩
  · intro cache a b
    cases hcl : List.lookup (memoKey n s) cache.entries with
    | some r => rw [getPackageManifest_hit sv reg cache n s r hcl]; simp
    | none => rw [getPackageManifest_miss sv reg cache n s hcl]; exact hraw a b
  · intro hv
    cases ht : reg.getTagVersion n s with
    | some pv =>
      cases h2 : (sv.valid pv).isSome with
      | true =>
        rw [getPackageManifestRaw_eq_tag sv reg n s pv hv ht h2]
        simp [isTagCall]
      | false =>
        rw [getPackageManifestRaw_eq_tag_bad sv reg n s pv hv ht h2]
        simp [isTagCall]
    | none =>
      rw [getPackageManifestRaw_eq_tag_none sv reg n s hv ht]
      simp [isTagCall]
  · intro hv
    cases hv2 : sv.valid s with
    | some pv =>
      cases h2 : (sv.valid pv).isSome with
      | true =>
        rw [getPackageManifestRaw_eq_exact sv reg n s pv hv2 h2]
        simp [isTagCall]
      | false =>
        rw [getPackageManifestRaw_eq_exact_bad sv reg n s pv hv2 h2]
        simp [isTagCall]
    | none => rw [hv2] at hv; cases hv
  · intro m hm
    cases hv : sv.valid s with
    | some pv =>
      cases h2 : (sv.valid pv).isSome with
      | true =>
        rw [getPackageManifestRaw_eq_exact sv reg n s pv hv h2] at hm ⊢
        refine ⟨pv, resolvedPackageVersion_eq_valid sv reg n s pv hv, h2, ?_, by simp⟩
        injection hm with h3
        exact h3.symm
      | false =>
        rw [getPackageManifestRaw_eq_exact_bad sv reg n s pv hv h2] at hm
        cases hm
    | none =>
      cases ht : reg.getTagVersion n s with
      | some pv =>
        cases h2 : (sv.valid pv).isSome with
        | true =>
          rw [getPackageManifestRaw_eq_tag sv reg n s pv hv ht h2] at hm ⊢
          refine ⟨pv, (resolvedPackageVersion_eq_tag sv reg n s hv).trans ht, h2, ?_, by simp⟩
          injection hm with h3
          exact h3.symm
        | false =>
          rw [getPackageManifestRaw_eq_tag_bad sv reg n s pv hv ht h2] at hm
          cases hm
      | none =>
        rw [getPackageManifestRaw_eq_tag_none sv reg n s hv ht] at hm
        cases hm

/-- C4 witness: a tag specifier is resolved by exactly one getTagVersion
call and no maxSatisfyingVersion call; an exact specifier yields a
successful manifest fetch with fullMetadata true. -/
theorem getPackageManifestRaw_tagOnly_witness :
    (svWitness.valid "latest" = none) ∧
    (getPackageManifestRaw svWitness regWitness "pkg" "latest").2.filter isTagCall =
      [RegistryCall.tagVersion "pkg" "latest"] ∧
    (∃ pv, resolvedPackageVersion svWitness regWitness "pkg" "1.2.3" = some pv ∧
      (svWitness.valid pv).isSome = true ∧
      "manifest:pkg@1.2.3" = regWitness.pacoteManifest ("pkg" ++ "@" ++ pv) ∧
      RegistryCall.manifestFetch ("pkg" ++ "@" ++ pv) true ∈
        (getPackageManifestRaw svWitness regWitness "pkg" "1.2.3").2) :=
  ⟨by decide,
    (getPackageManifestRaw_tagOnly svWitness regWitness "pkg" "latest").2.2.1 (by decide),
    (getPackageManifestRaw_tagOnly svWitness regWitness "pkg" "1.2.3").2.2.2.2
      "manifest:pkg@1.2.3" (by decide)⟩

/-! ### Claim C5 -/

/-- C5 counterexample: a tag that resolves to a version string that is not
semver-valid makes the call fail, but the raised error message cites only
the package name and the original specifier — the resolved value 3.2.0
does not occur in it, contradicting the part of the claim that says the
error includes the resolved value. -/
theorem getPackageManifestRaw_error_lacks_resolved :
    (getPackageManifestRaw svWitness regWitness "pkg" "latest").1 =
      Except.error "Failed to get information for package: pkg@latest" ∧
    resolvedPackageVersion svWitness regWitness "pkg" "latest" = some "3.2.0" ∧
    strHas "3.2.0" "Failed to get information for package: pkg@latest" = false := by
  decide

/-- C5 amended: getPackageManifest fails exactly when the resolved version
is absent or not semver-valid, and the raised error cites the offending
package name and the original specifier (but not the resolved value). -/
theorem getPackageManifestRaw_failure (sv : SemverLib) (reg : Registry) (n s : String) :
    (exceptIsError (getPackageManifestRaw sv reg n s).1 = true ↔
      (∀ pv, resolvedPackageVersion sv reg n s = some pv → (sv.valid pv).isSome = false)) ∧
    (∀ e, (getPackageManifestRaw sv reg n s).1 = Except.error e →
      e = manifestFailureMsg n s) := by
  cases hv : sv.valid s with
  | some pv =>
    have hres := resolvedPackageVersion_eq_valid sv reg n s pv hv
    cases h2 : (sv.valid pv).isSome with
    | true =>
      rw [getPackageManifestRaw_eq_exact sv reg n s pv hv h2]
      constructor
      · simp [exceptIsError]
        refine ⟨pv, hres, fun hn => ?_⟩
        rw [hn] at h2
        cases h2
      · intro e he
        cases he
    | false =>
      rw [getPackageManifestRaw_eq_exact_bad sv reg n s pv hv h2]
      constructor
      · simp only [exceptIsError, true_iff]
        intro q hq
        rw [hres] at hq
        injection hq with hq2
        rw [← hq2]
        exact h2
      · intro e he
        injection he with he2
        exact he2.symm
  | none =>
    have hres := resolvedPackageVersion_eq_tag sv reg n s hv
    cases ht : reg.getTagVersion n s with
    | some pv =>
      cases h2 : (sv.valid pv).isSome with
      | true =>
        rw [getPackageManifestRaw_eq_tag sv reg n s pv hv ht h2]
        constructor
        · simp [exceptIsError]
          refine ⟨pv, hres.trans ht, fun hn => ?_⟩
          rw [hn] at h2
          cases h2
        · intro e he
          cases he
      | false =>
        rw [getPackageManifestRaw_eq_tag_bad sv reg n s pv hv ht h2]
        constructor
        · simp only [exceptIsError, true_iff]
          intro q hq
          rw [hres.trans ht] at hq
          injection hq with hq2
          rw [← hq2]
          exact h2
        · intro e he
          injection he with he2
          exact he2.symm
    | none =>
      rw [getPackageManifestRaw_eq_tag_none sv reg n s hv ht]
      constructor
      · simp only [exceptIsError, true_iff]
        intro q hq
        rw [hres.trans ht] at hq
        cases hq
      · intro e he
        injection he with he2
        exact he2.symm

/-- C5 amended witness: the unresolvable-tag failure at a concrete input,
with its message equal to the name-and-specifier message. -/
theorem getPackageManifestRaw_failure_witness :
    exceptIsError (getPackageManifestRaw svWitness regWitness "pkg" "latest").1 = true ∧
    "Failed to get information for package: pkg@latest" =
      manifestFailureMsg "pkg" "latest" :=
  ⟨(getPackageManifestRaw_failure svWitness regWitness "pkg" "latest").1.mpr (by
      intro pv hpv
      have h32 : resolvedPackageVersion svWitness regWitness "pkg" "latest" =
          some "3.2.0" := by decide
      rw [h32] at hpv
      injection hpv with hpv2
      rw [← hpv2]
      decide),
    (getPackageManifestRaw_failure svWitness regWitness "pkg" "latest").2
      "Failed to get information for package: pkg@latest" (by decide)⟩

/-! ### Claim C6 -/

theorem jsTruthy_iff (v : Option String) :
    jsTruthy v = true ↔ ∃ s, v = some s ∧ s ≠ "" := by
  cases v with
  | none => simp [jsTruthy]
  | some s => simp [jsTruthy]

/-- C6 counterexample: a package name that is a key of the dependencies
mapping but bound to the empty specifier string makes hasDependency
falsy, contradicting the claim that the result is true whenever the name
is a key of either mapping. -/
theorem hasDependency_empty_specifier :
    hasDependency { packageName := "a" }
      { dependencies := some [("a", "")], devDependencies := none } = false ∧
    List.lookup "a" [("a", "")] = some "" := by
  decide

/-- C6 amended: hasDependency is the JavaScript truthiness of the looked
up specifier: it is true exactly when the package name is bound, in the
dependencies or in the devDependencies mapping, to a non-empty specifier
string; an absent or empty mapping, a missing key, and an empty specifier
all yield false, without error. -/
theorem hasDependency_truthiness (dep : IDependency) (pd : IProjectData) :
    hasDependency dep pd = true ↔
      ((∃ ds, pd.dependencies = some ds ∧
          ∃ v, List.lookup dep.packageName ds = some v ∧ v ≠ "") ∨
        (∃ ds, pd.devDependencies = some ds ∧
          ∃ v, List.lookup dep.packageName ds = some v ∧ v ≠ "")) := by
  unfold hasDependency
  rw [Bool.or_eq_true]
  cases hd : pd.dependencies with
  | none =>
    cases hv : pd.devDependencies with
    | none => simp
    | some ds => simp [jsTruthy_iff]
  | some ds =>
    cases hv : pd.devDependencies with
    | none => simp [jsTruthy_iff]
    | some ds2 => simp [jsTruthy_iff]

/-- C6 amended witness: a name bound to a non-empty specifier in
devDependencies makes hasDependency true. -/
theorem hasDependency_truthiness_witness :
    hasDependency { packageName := "lodash" }
      { dependencies := none, devDependencies := some [("lodash", "4.17.21")] } = true :=
  (hasDependency_truthiness { packageName := "lodash" }
    { dependencies := none, devDependencies := some [("lodash", "4.17.21")] }).mpr
    (Or.inr ⟨[("lodash", "4.17.21")], rfl, "4.17.21", by decide, by decide⟩)

end UpdateCtrl
